import Mathlib

/-!
Shallow embedding of the Object Storage Gateway core of `b0k3ts`
(`server/internal/pkg/buckets/buckets.go` together with the KV helpers of
`server/internal/pkg/badger/badger.go` and the `auth.User` shape of
`server/internal/pkg/auth/oidc.go`), and theorems settling the frozen
claims about it.

Conventions of the embedding:
* Go strings are `String`; Go `int`/`int64` are `Int` (no overflow is
  relevant at the modelled sizes); Go slices are `List`.
* The embedded Badger KV store holds `BucketConfig` values directly:
  `json.Marshal`/`json.Unmarshal` form an inverse pair on these records,
  so serialization is elided and keys are modelled exactly.
* A Gin handler is a function from its inputs (request, resolved user,
  KV state, object-store state, and the outcomes of the store primitives
  it calls) to a response value plus the successor state; `c.JSON(s, b)`
  followed by `return` becomes returning the response `(s, b)`.
* `log.Fatal` (which terminates the whole process) is modelled by a
  dedicated `processExit` outcome, distinct from every JSON response.
-/

namespace Buckets

/-- `auth.User` (oidc.go): the fields the bucket handlers consult. -/
structure User where
  email : String
  groups : List String
  administrator : Bool
  deriving Repr, DecidableEq

/-- `configs.OIDC`: the only field the bucket handlers consult. -/
structure OIDC where
  adminGroup : String
  deriving Repr, DecidableEq

/-- `App` (buckets.go): OIDC config; the Badger DB handle is passed
separately as an explicit KV state. -/
structure App where
  oidcConfig : OIDC
  deriving Repr, DecidableEq

/-- `BucketConfig` (buckets.go lines 1195–1205). -/
structure BucketConfig where
  bucketId : String
  endpoint : String
  accessKeyId : String
  secretAccessKey : String
  secure : Bool
  bucketName : String
  location : String
  authorizedUsers : List String
  authorizedGroups : List String
  deriving Repr, DecidableEq

/-- `const BucketIdPrefix = "bucket-"` (buckets.go line 1181). -/
def BucketIdPrefix : String := "bucket-"

/-- `const OctetStream = "application/octet-stream"` (line 1180). -/
def OctetStream : String := "application/octet-stream"

/-- `isAuthorizedForBucket` (buckets.go lines 1918–1943): admin flag,
then the user allowlist, then for each group the admin group and the
group allowlist; early `return true` becomes `List.any`. -/
def isAuthorizedForBucket (app : App) (userInfo : User) (bucketConfig : BucketConfig) : Bool :=
  if userInfo.administrator then true
  else if bucketConfig.authorizedUsers.any (fun u => u == userInfo.email) then true
  else userInfo.groups.any (fun g =>
    g == app.oidcConfig.adminGroup ||
      bucketConfig.authorizedGroups.any (fun allowed => g == allowed))

/-- C1: the authorization decision is exactly
admin ∨ email ∈ users ∨ adminGroup ∈ groups ∨ groups ∩ authorizedGroups ≠ ∅. -/
theorem isAuthorizedForBucket_iff (app : App) (u : User) (cfg : BucketConfig) :
    isAuthorizedForBucket app u cfg = true ↔
      (u.administrator = true ∨ u.email ∈ cfg.authorizedUsers ∨
        app.oidcConfig.adminGroup ∈ u.groups ∨
        ∃ g, g ∈ u.groups ∧ g ∈ cfg.authorizedGroups) := by
  have hb : isAuthorizedForBucket app u cfg =
      (u.administrator || cfg.authorizedUsers.any (fun x => x == u.email) ||
        u.groups.any (fun g =>
          g == app.oidcConfig.adminGroup ||
            cfg.authorizedGroups.any (fun allowed => g == allowed))) := by
    unfold isAuthorizedForBucket
    cases u.administrator <;>
      cases cfg.authorizedUsers.any (fun x => x == u.email) <;> simp
  rw [hb]
  simp only [Bool.or_eq_true, List.any_eq_true, beq_iff_eq]
  constructor
  · rintro ((hA | ⟨x, hx, rfl⟩) | ⟨g, hg, (rfl | ⟨a, ha, rfl⟩)⟩)
    · exact Or.inl hA
    · exact Or.inr (Or.inl hx)
    · exact Or.inr (Or.inr (Or.inl hg))
    · exact Or.inr (Or.inr (Or.inr ⟨g, hg, ha⟩))
  · rintro (hA | hx | hg | ⟨g, hg, ha⟩)
    · exact Or.inl (Or.inl hA)
    · exact Or.inl (Or.inr ⟨u.email, hx, rfl⟩)
    · exact Or.inr ⟨app.oidcConfig.adminGroup, hg, Or.inl rfl⟩
    · exact Or.inr ⟨g, hg, Or.inr ⟨g, ha, rfl⟩⟩

/-! ## KV store (badger.go `PullKV`/`PutKV`/`DeleteKV`)

The Badger store maps string keys to serialized `BucketConfig` records;
values are kept unserialized (marshal/unmarshal round-trip is elided). -/

/-- The embedded KV store: an association list, most recent write first. -/
def KV : Type := List (String × BucketConfig)

instance : DecidableEq KV := by
  unfold KV
  infer_instance

/-- `badgerDB.PutKV` (badger.go): `txn.Set` overwrites the key. -/
def PutKV (db : KV) (key : String) (value : BucketConfig) : KV :=
  (key, value) :: (db.filter (fun p => p.1 ≠ key) : KV)

/-- `badgerDB.PullKV` (badger.go): `txn.Get`, `NotFound` as `none`. -/
def PullKV (db : KV) (key : String) : Option BucketConfig :=
  ((db : List (String × BucketConfig)).find? (fun p => p.1 == key)).map Prod.snd

/-- `badgerDB.DeleteKV` (badger.go): `txn.Delete`. -/
def DeleteKV (db : KV) (key : String) : KV :=
  (db.filter (fun p => p.1 ≠ key) : KV)

/-- The write performed by `AddConnection` (buckets.go lines 1993–2033)
once token and JSON binding succeed: marshal the bound `BucketConfig` and
`PutKV` it under `BucketIdPrefix + bucketConfig.BucketName`. -/
def addConnectionWrite (db : KV) (bucketConfig : BucketConfig) : KV :=
  PutKV db (BucketIdPrefix ++ bucketConfig.bucketName) bucketConfig

/-- The read performed by `getBucketConfigOrRespond` (lines 1900–1916),
shared by delete/authorize paths: `PullKV` at `BucketIdPrefix + bucketID`
and unmarshal. -/
def getBucketConfig (db : KV) (bucketID : String) : Option BucketConfig :=
  PullKV db (BucketIdPrefix ++ bucketID)

/-- A connection record whose caller-assigned id differs from the name of
the bucket it points at — a legal record per the data model. -/
def cfgDevData : BucketConfig :=
  { bucketId := "dev"
    endpoint := "s3.example.com"
    accessKeyId := "AK"
    secretAccessKey := "SK"
    secure := true
    bucketName := "data"
    location := "us-east-1"
    authorizedUsers := ["a@x.com"]
    authorizedGroups := [] }

/-- C2: the upsert/read round-trip fails on the code as written.
`AddConnection` stores the record under `"bucket-" + BucketName`, while
every read path keys by `"bucket-" + BucketId`: for a record with
`bucketId = "dev"` and `bucketName = "data"`, a lookup by its bucket id
after the upsert finds nothing, and the record sits under the name key. -/
theorem addConnection_get_roundTrip_fails :
    getBucketConfig (addConnectionWrite ([] : KV) cfgDevData) cfgDevData.bucketId = none ∧
      getBucketConfig (addConnectionWrite ([] : KV) cfgDevData) cfgDevData.bucketName =
        some cfgDevData := by
  constructor <;> rfl

/-! ## DeleteConnection (buckets.go lines 1849–1878) -/

/-- `strings.TrimSpace`: strip leading and trailing whitespace
(executable model; `String.trim` itself does not reduce). -/
def trimSpace (s : String) : String :=
  ⟨((s.data.dropWhile Char.isWhitespace).reverse.dropWhile Char.isWhitespace).reverse⟩

/-- `BucketDeleteRequest` (lines 1207–1209). -/
structure BucketDeleteRequest where
  bucketId : String
  deriving Repr, DecidableEq

/-- Outcome of the delete-connection handler: a JSON response with an
HTTP status, plus the successor KV state is returned alongside. -/
inductive DeleteConnResponse where
  | errorTokenUser
  | errorGetConfig
  | errorDeleteKV
  | deleted (message : String)
  deriving Repr, DecidableEq

/-- HTTP status carried by each `DeleteConnection` response. -/
def DeleteConnResponse.status : DeleteConnResponse → Nat
  | .errorTokenUser => 400
  | .errorGetConfig => 400
  | .errorDeleteKV => 400
  | .deleted _ => 200

/-- `DeleteConnection` (lines 1849–1878): resolve the token user, bind
the request, read the config by `BucketIdPrefix + req.BucketId`; if the
caller is not authorized, respond 200 with the success message WITHOUT
deleting; otherwise delete the key and respond 200 with the same
message. (`DeleteKV` cannot fail in the embedding, so `errorDeleteKV`
is never produced; JSON binding failures are outside the model.) -/
def DeleteConnection (app : App) (db : KV) (userInfo : User)
    (req : BucketDeleteRequest) : DeleteConnResponse × KV :=
  if trimSpace userInfo.email == "" then (.errorTokenUser, db)
  else
    match getBucketConfig db req.bucketId with
    | none => (.errorGetConfig, db)
    | some bucketConfig =>
      if !isAuthorizedForBucket app userInfo bucketConfig then
        -- "Preserve previous behavior: silently succeed even if not authorized."
        (.deleted "Bucket connection deleted successfully", db)
      else
        (.deleted "Bucket connection deleted successfully",
          DeleteKV db (BucketIdPrefix ++ req.bucketId))

/-- C10: an authenticated but unauthorized delete leaves the registry
unchanged yet returns the very response (status 200 and message) that an
authorized deletion returns, so the two are indistinguishable. -/
theorem deleteConnection_unauthorized_silent (app : App) (db : KV) (u : User)
    (req : BucketDeleteRequest) (cfg : BucketConfig)
    (hEmail : trimSpace u.email ≠ "")
    (hGet : getBucketConfig db req.bucketId = some cfg)
    (hAuth : isAuthorizedForBucket app u cfg = false) :
    DeleteConnection app db u req =
        (.deleted "Bucket connection deleted successfully", db) ∧
      ∀ (app2 : App) (db2 : KV) (u2 : User) (req2 : BucketDeleteRequest)
        (cfg2 : BucketConfig), trimSpace u2.email ≠ "" →
        getBucketConfig db2 req2.bucketId = some cfg2 →
        isAuthorizedForBucket app2 u2 cfg2 = true →
        (DeleteConnection app2 db2 u2 req2).1 = (DeleteConnection app db u req).1 := by
  have h1 : DeleteConnection app db u req =
      (.deleted "Bucket connection deleted successfully", db) := by
    unfold DeleteConnection
    rw [if_neg (by simpa using hEmail), hGet]
    simp [hAuth]
  refine ⟨h1, ?_⟩
  intro app2 db2 u2 req2 cfg2 hE2 hG2 hA2
  rw [h1]
  unfold DeleteConnection
  rw [if_neg (by simpa using hE2), hG2]
  simp [hA2]

/-- Witness for `deleteConnection_unauthorized_silent` at a concrete
store, user and request. -/
theorem deleteConnection_unauthorized_silent_witness :
    DeleteConnection ⟨⟨"admins"⟩⟩ [("bucket-dev", cfgDevData)]
        ⟨"b@x.com", [], false⟩ ⟨"dev"⟩ =
        (.deleted "Bucket connection deleted successfully",
          [("bucket-dev", cfgDevData)]) :=
  (deleteConnection_unauthorized_silent ⟨⟨"admins"⟩⟩ [("bucket-dev", cfgDevData)]
    ⟨"b@x.com", [], false⟩ ⟨"dev"⟩ cfgDevData (by decide) (by rfl) (by rfl)).1

/-! ## Shared request-resolution pipeline (`authorizeAndExtract`) -/

/-- `ObjectRequest` (buckets.go lines 1766–1769): `prefix` and `bucket`
fields (`prefix` is a Lean keyword, hence `pfx`). -/
structure ObjectRequest where
  pfx : String
  bucketName : String
  deriving Repr, DecidableEq

/-- `bucketNameOrRespond` (lines 2322–2341): use the passed name when
non-blank, otherwise re-bind the body as `ObjectRequest` and use its
trimmed `bucket` field; `fallback` is that body field. -/
def bucketNameOrRespond (passed fallback : String) : Option String :=
  if trimSpace passed != "" then some passed
  else if trimSpace fallback == "" then none
  else some (trimSpace fallback)

/-- `authorizeAndExtract` (lines 2298–2320): token user, bucket name,
config lookup, authorization; any failure responds 400 and yields no
config (`none`). -/
def authorizeAndExtract (app : App) (db : KV) (u : User)
    (passed fallback : String) : Option BucketConfig :=
  if trimSpace u.email == "" then none
  else
    match bucketNameOrRespond passed fallback with
    | none => none
    | some name =>
      match getBucketConfig db name with
      | none => none
      | some bucketConfig =>
        if !isAuthorizedForBucket app u bucketConfig then none
        else some bucketConfig

/-! ## Object store and the move engine (buckets.go lines 1265–1556)

The resolved bucket's contents are a list of objects; `minio` calls
become pure state transformers. `ListObjects` yields the keys under a
prefix in the store's enumeration order (channel-streaming and listing
errors are outside the model); `RemoveObject` succeeds whether or not
the key exists, matching S3 delete semantics. -/

/-- One stored object: the attributes the gateway reads. -/
structure ObjInfo where
  key : String
  size : Int
  contentType : String
  deriving Repr, DecidableEq

/-- The contents of one bucket. -/
def Store : Type := List ObjInfo

instance : DecidableEq Store := by
  unfold Store
  infer_instance

/-- `strings.HasPrefix` / minio prefix matching, over the char list so
that it reduces. -/
def strHasPrefix (s pre : String) : Bool :=
  pre.data.isPrefixOf s.data

/-- `strings.HasSuffix`, over the char list so that it reduces. -/
def strHasSuffix (s post : String) : Bool :=
  post.data.isSuffixOf s.data

/-- `strings.TrimPrefix`. -/
def strTrimPrefix (s pre : String) : String :=
  if strHasPrefix s pre then ⟨s.data.drop pre.data.length⟩ else s

/-- `mio.StatObject` succeeds iff the key is present. -/
def statObject (s : Store) (key : String) : Bool :=
  (s : List ObjInfo).any (fun o => o.key == key)

/-- `mio.CopyObject`: server-side copy; fails when the source key is
absent, otherwise writes the source's attributes at the destination. -/
def copyObject (s : Store) (fromKey toKey : String) : Except String Store :=
  match (s : List ObjInfo).find? (fun o => o.key == fromKey) with
  | none => .error "NoSuchKey"
  | some o =>
    .ok (({ o with key := toKey } :: s.filter (fun o' => o'.key ≠ toKey) : List ObjInfo) : Store)

/-- `mio.RemoveObject`. -/
def removeObject (s : Store) (key : String) : Store :=
  (s.filter (fun o => o.key ≠ key) : Store)

/-- `httpError` (lines 1538–1542): status, message, optional JSON body. -/
structure httpError where
  status : Nat
  msg : String
  body : Option (List (String × String))
  deriving Repr, DecidableEq

/-- `ObjectMoveRequest` (lines 1211–1218). -/
structure ObjectMoveRequest where
  bucket : String
  fromKey : String
  toKey : String
  fromPrefix : String
  toPrefix : String
  overwrite : Bool
  deriving Repr, DecidableEq

/-- `normalizePrefix` (lines 1265–1274): keep `""`; append `"/"` when
the prefix does not already end with it. -/
def normalizePrefix (p : String) : String :=
  if p == "" then ""
  else if !strHasSuffix p "/" then p ++ "/"
  else p

/-- `isSingleObjectMove` (lines 1386–1388). -/
def isSingleObjectMove (req : ObjectMoveRequest) : Bool :=
  req.fromKey != "" || req.toKey != ""

/-- `ensureDestinationAbsent` (lines 1505–1514): skipped under
`overwrite`; a successful stat means the destination exists → 409; a
stat failure is treated as absence. -/
def ensureDestinationAbsent (s : Store) (key : String) (overwrite : Bool) :
    Option httpError :=
  if overwrite then none
  else if statObject s key then
    some { status := 409, msg := "destination object already exists", body := none }
  else none

/-- `copyAndDelete` (lines 1516–1536): copy, then delete the source; a
copy failure aborts with the store unchanged (no delete attempted). -/
def copyAndDelete (s : Store) (fromKey toKey : String) : Option httpError × Store :=
  match copyObject s fromKey toKey with
  | .error e => (some { status := 400, msg := e, body := none }, s)
  | .ok s' => (none, removeObject s' fromKey)

/-- `moveSingleObject` (lines 1390–1406). -/
def moveSingleObject (s : Store) (req : ObjectMoveRequest) :
    Option httpError × Store :=
  if req.fromKey == "" || req.toKey == "" then
    (some { status := 400
            msg := "from_key and to_key are required for single object move"
            body := none }, s)
  else if req.fromKey == req.toKey then
    (some { status := 400
            msg := "from_key and to_key must be different"
            body := none }, s)
  else
    match ensureDestinationAbsent s req.toKey req.overwrite with
    | some e => (some e, s)
    | none => copyAndDelete s req.fromKey req.toKey

/-- `validatePrefixMove` (lines 1436–1447). -/
def validatePrefixMove (req : ObjectMoveRequest) :
    Except httpError (String × String) :=
  let fromPfx := normalizePrefix req.fromPrefix
  let toPfx := normalizePrefix req.toPrefix
  if fromPfx == "" || toPfx == "" then
    .error { status := 400
             msg := "either (from_key,to_key) or (from_prefix,to_prefix) must be provided"
             body := none }
  else if fromPfx == toPfx then
    .error { status := 400
             msg := "from_prefix and to_prefix must be different"
             body := none }
  else .ok (fromPfx, toPfx)

/-- `prefixMoveConflictOrErr` (lines 1478–1491). -/
def prefixMoveConflictOrErr (e : httpError) (newKey : String) : httpError :=
  if e.status ≠ 409 then e
  else
    { status := 409
      msg := ""
      body := some [("error", "destination object already exists"),
        ("object", newKey),
        ("message", "set overwrite=true to replace existing objects")] }

/-- `withMoveKeys` (lines 1493–1503). -/
def withMoveKeys (e : httpError) (fromKey toKey : String) : httpError :=
  if e.status ≠ 400 then e
  else
    match e.body with
    | some _ => e
    | none => { e with body := some [("error", e.msg), ("from", fromKey), ("to", toKey)] }

/-- `moveOnePrefixObject` (lines 1449–1476). -/
def moveOnePrefixObject (s : Store) (req : ObjectMoveRequest)
    (fromPfx toPfx fromKey : String) : Except httpError Nat × Store :=
  let rel := strTrimPrefix fromKey fromPfx
  if rel == "" then (.ok 0, s)
  else
    let newKey := toPfx ++ rel
    match ensureDestinationAbsent s newKey req.overwrite with
    | some e => (.error (prefixMoveConflictOrErr e newKey), s)
    | none =>
      match copyAndDelete s fromKey newKey with
      | (some e, s') => (.error (withMoveKeys e fromKey newKey), s')
      | (none, s') => (.ok 1, s')

/-- Keys under a prefix, recursive, in store enumeration order
(`mio.ListObjects` with `Recursive: true`). -/
def listKeys (s : Store) (pfx : String) : List String :=
  ((s : List ObjInfo).map ObjInfo.key).filter (fun k => strHasPrefix k pfx)

/-- The `for obj := range ch` loop of `moveByPrefix` (lines 1419–1431):
per-key move, accumulating `moved`, stopping at the first failure and
returning the count so far alongside the error. -/
def moveByPrefixGo (req : ObjectMoveRequest) (fromPfx toPfx : String) :
    List String → Store → Nat → (Nat × Option httpError) × Store
  | [], s, moved => ((moved, none), s)
  | k :: ks, s, moved =>
    match moveOnePrefixObject s req fromPfx toPfx k with
    | (.error e, s') => ((moved, some e), s')
    | (.ok n, s') => moveByPrefixGo req fromPfx toPfx ks s' (moved + n)

/-- `moveByPrefix` (lines 1408–1434). -/
def moveByPrefix (s : Store) (req : ObjectMoveRequest) :
    (Nat × Option httpError) × Store :=
  match validatePrefixMove req with
  | .error e => ((0, some e), s)
  | .ok (fromPfx, toPfx) =>
    moveByPrefixGo req fromPfx toPfx (listKeys s fromPfx) s 0

/-- Responses of the `Move` endpoint (lines 1338–1374 with
`respondMoveError`, lines 1546–1556): success carries only the moved
count; errors carry the `httpError`'s status and JSON body. -/
inductive MoveResponse where
  | authFailure
  | connectError
  | ok (moved : Nat)
  | err (status : Nat) (body : List (String × String))
  deriving Repr, DecidableEq

/-- `respondMoveError` (lines 1546–1556). -/
def respondMoveError (e : httpError) : MoveResponse :=
  match e.body with
  | some b => .err e.status b
  | none => .err e.status [("error", e.msg)]

/-- `Move` (lines 1338–1374): bind, resolve+authorize, connect, then
dispatch on the mode; on a prefix-move failure only the error is
rendered — the accumulated count is discarded. -/
def Move (app : App) (db : KV) (u : User) (req : ObjectMoveRequest)
    (connectOk : Bool) (store : Store) : MoveResponse × Store :=
  match authorizeAndExtract app db u req.bucket req.bucket with
  | none => (.authFailure, store)
  | some _bucketConfig =>
    if !connectOk then (.connectError, store)
    else if isSingleObjectMove req then
      match moveSingleObject store req with
      | (some e, s') => (respondMoveError e, s')
      | (none, s') => (.ok 1, s')
    else
      match moveByPrefix store req with
      | ((_, some e), s') => (respondMoveError e, s')
      | ((moved, none), s') => (.ok moved, s')

/-! ## Fixtures: a registry holding one connection, and an admin user -/

/-- An app configured with admin group `"admins"`. -/
def appDev : App := ⟨⟨"admins"⟩⟩

/-- A registry holding `cfgDevData` under its id key (as the read paths
expect it). -/
def dbDev : KV := [("bucket-dev", cfgDevData)]

/-- An administrator principal. -/
def rootUser : User := ⟨"root@x.com", [], true⟩

/-- C4: a single-object move with `overwrite = false` against an
existing destination returns 409 Conflict with the store untouched: no
copy and no delete happen, and the endpoint renders exactly that
conflict. -/
theorem moveSingleObject_conflict (app : App) (db : KV) (u : User)
    (req : ObjectMoveRequest) (s : Store) (cfg : BucketConfig)
    (h1 : req.fromKey ≠ "") (h2 : req.toKey ≠ "") (h3 : req.fromKey ≠ req.toKey)
    (h4 : req.overwrite = false) (h5 : statObject s req.toKey = true)
    (hauth : authorizeAndExtract app db u req.bucket req.bucket = some cfg) :
    moveSingleObject s req =
        (some { status := 409, msg := "destination object already exists", body := none }, s) ∧
      Move app db u req true s =
        (.err 409 [("error", "destination object already exists")], s) := by
  have hf : (req.fromKey == "") = false := by simp [h1]
  have ht : (req.toKey == "") = false := by simp [h2]
  have hft : (req.fromKey == req.toKey) = false := by simp [h3]
  have h409 : moveSingleObject s req =
      (some { status := 409, msg := "destination object already exists", body := none }, s) := by
    unfold moveSingleObject ensureDestinationAbsent
    rw [hf, ht, hft]
    simp [h4, h5]
  refine ⟨h409, ?_⟩
  have hm : isSingleObjectMove req = true := by
    unfold isSingleObjectMove
    simp [h1]
  unfold Move
  rw [hauth]
  simp [hm, h409, respondMoveError]

/-- Witness: conflict on moving `"src"` onto the existing `"dst"`. -/
theorem moveSingleObject_conflict_witness :
    moveSingleObject [⟨"src", 1, "t"⟩, ⟨"dst", 2, "t"⟩]
          ⟨"dev", "src", "dst", "", "", false⟩ =
        (some { status := 409, msg := "destination object already exists", body := none },
          [⟨"src", 1, "t"⟩, ⟨"dst", 2, "t"⟩]) ∧
      Move appDev dbDev rootUser ⟨"dev", "src", "dst", "", "", false⟩ true
          [⟨"src", 1, "t"⟩, ⟨"dst", 2, "t"⟩] =
        (.err 409 [("error", "destination object already exists")],
          [⟨"src", 1, "t"⟩, ⟨"dst", 2, "t"⟩]) :=
  moveSingleObject_conflict appDev dbDev rootUser ⟨"dev", "src", "dst", "", "", false⟩
    [⟨"src", 1, "t"⟩, ⟨"dst", 2, "t"⟩] cfgDevData
    (by decide) (by decide) (by decide) rfl (by rfl) (by rfl)

/-- C9 counterexample: the empty prefix does not mean "bucket root" and
the move is not "rejected only when the normalized prefixes are equal":
with `fromPrefix = ""` and `toPrefix = "b"` the normalized prefixes
differ, yet `validatePrefixMove` rejects the request. -/
theorem validatePrefixMove_rejects_empty :
    normalizePrefix "" ≠ normalizePrefix "b" ∧
      validatePrefixMove ⟨"dev", "", "", "", "b", false⟩ =
        .error { status := 400
                 msg := "either (from_key,to_key) or (from_prefix,to_prefix) must be provided"
                 body := none } := by
  exact ⟨by decide, by rfl⟩

/-- C9 as amended: a prefix that does not already end in `"/"` gets one
appended (so `"a"` and `"a/"` normalize identically), and a prefix move
is accepted exactly when both normalized prefixes are non-empty and
distinct, the accepted pair being the normalized one. -/
theorem normalizePrefix_validate_spec :
    (∀ p : String, p ≠ "" → strHasSuffix p "/" = false →
      normalizePrefix p = p ++ "/" ∧ normalizePrefix (p ++ "/") = p ++ "/") ∧
      (∀ req : ObjectMoveRequest,
        (∃ ft, validatePrefixMove req = .ok ft) ↔
          (normalizePrefix req.fromPrefix ≠ "" ∧ normalizePrefix req.toPrefix ≠ "" ∧
            normalizePrefix req.fromPrefix ≠ normalizePrefix req.toPrefix)) ∧
      (∀ (req : ObjectMoveRequest) (fp tp : String),
        validatePrefixMove req = .ok (fp, tp) →
          fp = normalizePrefix req.fromPrefix ∧ tp = normalizePrefix req.toPrefix) := by
  refine ⟨?_, ?_, ?_⟩
  · intro p hp hs
    have hne : (p == "") = false := by simp [hp]
    have happ : ((p ++ "/") == "") = false := by
      simp only [beq_eq_false_iff_ne, ne_eq]
      intro h
      have : (p ++ "/").data = "".data := by rw [h]
      simp [String.data_append] at this
    have hsuf : strHasSuffix (p ++ "/") "/" = true := by
      unfold strHasSuffix
      simp [String.data_append, List.isSuffixOf]
    constructor
    · unfold normalizePrefix
      rw [hne, hs]
      simp
    · unfold normalizePrefix
      rw [happ, hsuf]
      simp
  · intro req
    unfold validatePrefixMove
    rcases h1 : (normalizePrefix req.fromPrefix == "" || normalizePrefix req.toPrefix == "") with _ | _
    · rcases h2 : (normalizePrefix req.fromPrefix == normalizePrefix req.toPrefix) with _ | _
      · simp only [h1, h2, Bool.false_eq_true, if_false]
        simp only [Bool.or_eq_false_iff, beq_eq_false_iff_ne, ne_eq] at h1
        simp only [beq_eq_false_iff_ne, ne_eq] at h2
        simp [h1.1, h1.2, h2]
      · simp only [h1, h2, Bool.false_eq_true, if_false, if_true]
        simp only [beq_iff_eq] at h2
        simp [h2]
    · simp only [h1, if_true]
      simp only [Bool.or_eq_true, beq_iff_eq] at h1
      constructor
      · rintro ⟨ft, hft⟩
        cases hft
      · rintro ⟨ha, hb, -⟩
        rcases h1 with h | h
        · exact absurd h ha
        · exact absurd h hb
  · intro req fp tp h
    unfold validatePrefixMove at h
    dsimp only at h
    rcases h1 : (normalizePrefix req.fromPrefix == "" || normalizePrefix req.toPrefix == "") with _ | _
    · rcases h2 : (normalizePrefix req.fromPrefix == normalizePrefix req.toPrefix) with _ | _
      · rw [h1, h2] at h
        simp at h
        exact ⟨h.1.symm, h.2.symm⟩
      · rw [h1, h2] at h
        simp at h
    · rw [h1] at h
      simp at h

/-- Witness for `normalizePrefix_validate_spec`: `"a"` normalizes to
`"a/"`, as does `"a/"` itself. -/
theorem normalizePrefix_validate_spec_witness :
    normalizePrefix "a" = "a" ++ "/" ∧ normalizePrefix ("a" ++ "/") = "a" ++ "/" :=
  normalizePrefix_validate_spec.1 "a" (by decide) (by rfl)

/-- A failure-free run of the prefix-move loop extends: processing
`done ++ ks` first replays `done` (ending in state `s1` with `m'`
moved) and then continues with `ks` from there. -/
theorem moveByPrefixGo_append (req : ObjectMoveRequest) (fromPfx toPfx : String) :
    ∀ (done ks : List String) (s s1 : Store) (m m' : Nat),
      moveByPrefixGo req fromPfx toPfx done s m = ((m', none), s1) →
      moveByPrefixGo req fromPfx toPfx (done ++ ks) s m =
        moveByPrefixGo req fromPfx toPfx ks s1 m'
  | [], ks, s, s1, m, m', h => by
    simp only [moveByPrefixGo, Prod.mk.injEq, and_true, true_and] at h
    rw [List.nil_append, h.1, h.2]
  | k :: done, ks, s, s1, m, m', h => by
    rw [List.cons_append]
    simp only [moveByPrefixGo] at h ⊢
    rcases hstep : moveOnePrefixObject s req fromPfx toPfx k with ⟨res, s'⟩
    cases res with
    | error e =>
      rw [hstep] at h
      simp at h
    | ok n =>
      rw [hstep] at h
      exact moveByPrefixGo_append req fromPfx toPfx done ks s' s1 (m + n) m' h

/-- C6 as amended: a prefix move stops at the first per-object failure;
`moveByPrefix` returns the count moved so far together with the error
(whose body carries the failing destination key for conflicts), but the
endpoint's error response renders only the error — the accumulated
count is not part of the response. -/
theorem moveByPrefix_first_failure (app : App) (db : KV) (u : User)
    (req : ObjectMoveRequest) (cfg : BucketConfig) (s s1 s2 : Store)
    (fromPfx toPfx : String) (done : List String) (k : String) (rest : List String)
    (moved : Nat) (e : httpError)
    (hauth : authorizeAndExtract app db u req.bucket req.bucket = some cfg)
    (hmode : isSingleObjectMove req = false)
    (hval : validatePrefixMove req = .ok (fromPfx, toPfx))
    (hlist : listKeys s fromPfx = done ++ k :: rest)
    (hdone : moveByPrefixGo req fromPfx toPfx done s 0 = ((moved, none), s1))
    (hfail : moveOnePrefixObject s1 req fromPfx toPfx k = (.error e, s2)) :
    moveByPrefix s req = ((moved, some e), s2) ∧
      Move app db u req true s = (respondMoveError e, s2) := by
  have hrun : moveByPrefix s req = ((moved, some e), s2) := by
    have hm1 : moveByPrefix s req = moveByPrefixGo req fromPfx toPfx (listKeys s fromPfx) s 0 := by
      unfold moveByPrefix
      rw [hval]
    have hm2 : moveByPrefixGo req fromPfx toPfx (k :: rest) s1 moved = ((moved, some e), s2) := by
      simp only [moveByPrefixGo]
      rw [hfail]
    rw [hm1, hlist, moveByPrefixGo_append req fromPfx toPfx done (k :: rest) s s1 0 moved hdone,
      hm2]
  refine ⟨hrun, ?_⟩
  unfold Move
  rw [hauth]
  simp [hmode, hrun]

/-- The result of moving `"a/x"` to `"b/x"` inside `store1Pfx`. -/
def store1Moved : Store := [⟨"b/x", 1, "t"⟩, ⟨"a/y", 2, "t"⟩, ⟨"b/y", 3, "t"⟩]

/-- A bucket whose keys `"a/x"`, `"a/y"` are being moved under `"b/"`,
where `"b/y"` already exists. -/
def store1Pfx : Store := [⟨"a/x", 1, "t"⟩, ⟨"a/y", 2, "t"⟩, ⟨"b/y", 3, "t"⟩]

/-- Same conflict with no preceding successful object. -/
def store2Pfx : Store := [⟨"a/y", 2, "t"⟩, ⟨"b/y", 3, "t"⟩]

/-- The prefix move `"a" → "b"` without overwrite. -/
def reqPfx : ObjectMoveRequest := ⟨"dev", "", "", "a", "b", false⟩

/-- The 409 produced when `"b/y"` already exists. -/
def conflictBY : httpError :=
  { status := 409
    msg := ""
    body := some [("error", "destination object already exists"),
      ("object", "b/y"),
      ("message", "set overwrite=true to replace existing objects")] }

/-- Witness for `moveByPrefix_first_failure`: `"a/x"` moves, `"a/y"`
conflicts on the existing `"b/y"`. -/
theorem moveByPrefix_first_failure_witness :
    moveByPrefix store1Pfx reqPfx = ((1, some conflictBY), store1Moved) ∧
      Move appDev dbDev rootUser reqPfx true store1Pfx =
        (respondMoveError conflictBY, store1Moved) :=
  moveByPrefix_first_failure appDev dbDev rootUser reqPfx cfgDevData
    store1Pfx store1Moved store1Moved "a/" "b/" ["a/x"] "a/y" [] 1 conflictBY
    (by rfl) (by rfl) (by rfl) (by rfl) (by rfl) (by rfl)

/-- C6 counterexample: the error response of a failed prefix move does
not report the partial success count — two runs that moved 1 and 0
objects respectively before the same conflict produce identical
responses, so the response cannot carry the count. -/
theorem movePrefix_error_response_omits_count :
    (moveByPrefix store1Pfx reqPfx).1.1 = 1 ∧
      (moveByPrefix store2Pfx reqPfx).1.1 = 0 ∧
      (Move appDev dbDev rootUser reqPfx true store1Pfx).1 =
        (Move appDev dbDev rootUser reqPfx true store2Pfx).1 ∧
      (Move appDev dbDev rootUser reqPfx true store1Pfx).1 =
        .err 409 [("error", "destination object already exists"),
          ("object", "b/y"),
          ("message", "set overwrite=true to replace existing objects")] := by
  refine ⟨by rfl, by rfl, by rfl, by rfl⟩

/-! ## Multipart upload coordinator (buckets.go lines 1558–1762)

Store primitives are injected as outcomes: `corsErr` is the result of
`core.SetBucketCors`, `initResult` of `core.NewMultipartUpload`, and
`completeResult` of `core.CompleteMultipartUpload`. The store calls a
handler issues are returned as an explicit trace. -/

/-- `MultipartInitiateRequest` (lines 1220–1224). -/
structure MultipartInitiateRequest where
  bucket : String
  key : String
  contentType : String
  deriving Repr, DecidableEq

/-- `MultipartInitiateResponse` (lines 1226–1230). -/
structure MultipartInitiateResponse where
  bucket : String
  key : String
  uploadID : String
  deriving Repr, DecidableEq

/-- Outcome of `MultipartInitiate`: every constructor except
`processExit` is a request-scoped JSON response; `processExit` models
`log.Fatal`, which terminates the whole gateway process. -/
inductive InitiateOutcome where
  | errKeyRequired
  | authFailure
  | connectError
  | processExit
  | errInitiate
  | ok (resp : MultipartInitiateResponse)
  deriving Repr, DecidableEq

/-- `MultipartInitiate` (lines 1558–1621): after validation, resolve and
authorize, build the core client, set the bucket CORS policy — on a
CORS failure the code calls `log.Fatal(err)` — then initiate. The
content-type defaulting to `OctetStream` only feeds the store call's
options and is not needed by any claim. -/
def MultipartInitiate (app : App) (db : KV) (u : User)
    (req : MultipartInitiateRequest) (connectOk : Bool)
    (corsErr : Option String) (initResult : Except String String) : InitiateOutcome :=
  if req.key == "" then .errKeyRequired
  else
    match authorizeAndExtract app db u req.bucket req.bucket with
    | none => .authFailure
    | some _bucketConfig =>
      if !connectOk then .connectError
      else
        match corsErr with
        | some _ => .processExit
        | none =>
          match initResult with
          | .error _ => .errInitiate
          | .ok uploadID => .ok ⟨req.bucket, req.key, uploadID⟩

/-- C3 fails on the code: a `SetBucketCors` failure during multipart
initiate is routed to `log.Fatal`, terminating the gateway process
instead of producing a request-scoped error response; the same request
succeeds when the CORS call succeeds. -/
theorem multipartInitiate_cors_error_kills_process :
    MultipartInitiate appDev dbDev rootUser ⟨"dev", "k", ""⟩ true
        (some "connection reset") (.ok "uid-1") = .processExit ∧
      MultipartInitiate appDev dbDev rootUser ⟨"dev", "k", ""⟩ true
        none (.ok "uid-1") = .ok ⟨"dev", "k", "uid-1"⟩ :=
  ⟨rfl, rfl⟩

/-- `MultipartCompletedPart`/`minio.CompletePart` (lines 1244–1247 and
1703–1713): both carry exactly a part number and an etag, so one
structure stands for both. -/
structure CompletePart where
  partNumber : Int
  etag : String
  deriving Repr, DecidableEq

/-- `MultipartCompleteRequest` (lines 1249–1254). -/
structure MultipartCompleteRequest where
  bucket : String
  key : String
  uploadID : String
  parts : List CompletePart
  deriving Repr, DecidableEq

/-- The multipart store primitives a handler can invoke. -/
inductive StoreCall where
  | completeMultipartUpload (bucketName key uploadID : String) (parts : List CompletePart)
  | abortMultipartUpload (bucketName key uploadID : String)
  deriving Repr, DecidableEq

/-- Whether a store call is an abort. -/
def isAbortCall : StoreCall → Bool
  | .abortMultipartUpload _ _ _ => true
  | _ => false

/-- The per-part rejection test of the conversion loop (line 1705). -/
def partInvalid (p : CompletePart) : Bool :=
  p.partNumber < 1 || p.partNumber > 10000 || p.etag == ""

/-- Ordering on parts used by the `sort.Slice` call (line 1715). -/
def partLE (a b : CompletePart) : Prop :=
  a.partNumber ≤ b.partNumber

instance : DecidableRel partLE := fun a b => by
  unfold partLE
  infer_instance

/-- Insert a part into a list sorted ascending by part number. -/
def insertPart (p : CompletePart) : List CompletePart → List CompletePart
  | [] => [p]
  | q :: qs => if p.partNumber ≤ q.partNumber then p :: q :: qs else q :: insertPart p qs

/-- `sort.Slice(parts, by ascending PartNumber)` (line 1715): Go's
sort is unstable, so any ascending reordering is a faithful model;
insertion sort is used. -/
def sortParts : List CompletePart → List CompletePart
  | [] => []
  | p :: ps => insertPart p (sortParts ps)

theorem insertPart_perm (p : CompletePart) :
    ∀ ps : List CompletePart, (insertPart p ps).Perm (p :: ps)
  | [] => List.Perm.refl _
  | q :: qs => by
    unfold insertPart
    by_cases h : p.partNumber ≤ q.partNumber
    · rw [if_pos h]
    · rw [if_neg h]
      exact ((insertPart_perm p qs).cons q).trans (List.Perm.swap p q qs)

theorem insertPart_sorted (p : CompletePart) :
    ∀ ps : List CompletePart, List.Sorted partLE ps →
      List.Sorted partLE (insertPart p ps)
  | [], _ => List.sorted_singleton p
  | q :: qs, h => by
    unfold insertPart
    obtain ⟨hq, hqs⟩ := List.sorted_cons.mp h
    by_cases hle : p.partNumber ≤ q.partNumber
    · rw [if_pos hle]
      refine List.sorted_cons.mpr ⟨?_, h⟩
      intro b hb
      rcases List.mem_cons.mp hb with rfl | hb
      · exact hle
      · exact le_trans hle (hq b hb)
    · rw [if_neg hle]
      refine List.sorted_cons.mpr ⟨?_, insertPart_sorted p qs hqs⟩
      intro b hb
      rcases List.mem_cons.mp ((insertPart_perm p qs).mem_iff.mp hb) with rfl | hb
      · exact le_of_lt (lt_of_not_le hle)
      · exact hq b hb

theorem sortParts_perm : ∀ ps : List CompletePart, (sortParts ps).Perm ps
  | [] => List.Perm.refl _
  | p :: ps => by
    unfold sortParts
    exact (insertPart_perm p (sortParts ps)).trans ((sortParts_perm ps).cons p)

theorem sortParts_sorted : ∀ ps : List CompletePart, List.Sorted partLE (sortParts ps)
  | [] => List.sorted_nil
  | p :: ps => insertPart_sorted p (sortParts ps) (sortParts_sorted ps)

/-- Outcome of `MultipartComplete`: each constructor is a request-scoped
JSON response (400 for the error cases, 200 for `ok`). -/
inductive CompleteOutcome where
  | errKeyOrUpload
  | errEmptyParts
  | authFailure
  | connectError
  | errBadPart
  | errComplete
  | ok (message : String)
  deriving Repr, DecidableEq

/-- `MultipartComplete` (lines 1676–1727): validate key/uploadID and a
non-empty parts list, resolve+authorize, build the core client, convert
the parts (rejecting any invalid one), sort ascending by part number,
and call the store's complete primitive; the second component is the
trace of store calls issued. -/
def MultipartComplete (app : App) (db : KV) (u : User)
    (req : MultipartCompleteRequest) (connectOk : Bool)
    (completeResult : Except String Unit) : CompleteOutcome × List StoreCall :=
  if req.key == "" || req.uploadID == "" then (.errKeyOrUpload, [])
  else if req.parts.length == 0 then (.errEmptyParts, [])
  else
    match authorizeAndExtract app db u req.bucket req.bucket with
    | none => (.authFailure, [])
    | some bucketConfig =>
      if !connectOk then (.connectError, [])
      else if req.parts.any partInvalid then (.errBadPart, [])
      else
        let call := StoreCall.completeMultipartUpload bucketConfig.bucketName
          req.key req.uploadID (sortParts req.parts)
        match completeResult with
        | .error _ => (.errComplete, [call])
        | .ok _ => (.ok "Multipart upload completed", [call])

/-- C8: an empty parts list or any part with an out-of-range part
number or empty etag is rejected before any store call is issued; a
valid request submits to the store exactly its parts, reordered
ascending by part number. -/
theorem multipartComplete_validates_and_sorts (app : App) (db : KV) (u : User)
    (req : MultipartCompleteRequest) (connectOk : Bool) (res : Except String Unit) :
    ((req.parts = [] ∨ req.parts.any partInvalid = true) →
        (MultipartComplete app db u req connectOk res).2 = []) ∧
      ∀ cfg : BucketConfig,
        authorizeAndExtract app db u req.bucket req.bucket = some cfg →
        req.key ≠ "" → req.uploadID ≠ "" → connectOk = true →
        req.parts.any partInvalid = false →
        req.parts ≠ [] →
        (MultipartComplete app db u req connectOk res).2 =
            [.completeMultipartUpload cfg.bucketName req.key req.uploadID (sortParts req.parts)] ∧
          (sortParts req.parts).Perm req.parts ∧
          List.Sorted partLE (sortParts req.parts) := by
  constructor
  · intro hbad
    unfold MultipartComplete
    rcases h1 : (req.key == "" || req.uploadID == "") with _ | _
    case true => rfl
    case false =>
      rcases h2 : (req.parts.length == 0) with _ | _
      case true => rfl
      case false =>
        have hinv : req.parts.any partInvalid = true := by
          rcases hbad with h | h
          · rw [h] at h2
            simp at h2
          · exact h
        rcases hauth : authorizeAndExtract app db u req.bucket req.bucket with _ | cfg
        case none => rfl
        case some =>
          cases connectOk
          case false => rfl
          case true => simp [hinv]
  · intro cfg hauth hk hu hc hvalid hne
    subst hc
    have h1 : (req.key == "" || req.uploadID == "") = false := by simp [hk, hu]
    have h2 : (req.parts.length == 0) = false := by simp [hne]
    refine ⟨?_, sortParts_perm req.parts, sortParts_sorted req.parts⟩
    unfold MultipartComplete
    rw [h1, h2, hauth]
    simp only [Bool.not_true, Bool.false_eq_true, if_false, hvalid]
    cases res <;> rfl

/-- Witness for `multipartComplete_validates_and_sorts`: parts supplied
as `[3,1,2]` are submitted to the store as `[1,2,3]`. -/
theorem multipartComplete_validates_and_sorts_witness :
    (MultipartComplete appDev dbDev rootUser
          ⟨"dev", "k", "uid", [⟨3, "e3"⟩, ⟨1, "e1"⟩, ⟨2, "e2"⟩]⟩ true (.ok ())).2 =
        [.completeMultipartUpload "data" "k" "uid" [⟨1, "e1"⟩, ⟨2, "e2"⟩, ⟨3, "e3"⟩]] ∧
      (sortParts [⟨3, "e3"⟩, ⟨1, "e1"⟩, ⟨2, "e2"⟩]).Perm [⟨3, "e3"⟩, ⟨1, "e1"⟩, ⟨2, "e2"⟩] ∧
      List.Sorted partLE (sortParts [⟨3, "e3"⟩, ⟨1, "e1"⟩, ⟨2, "e2"⟩]) :=
  (multipartComplete_validates_and_sorts appDev dbDev rootUser
      ⟨"dev", "k", "uid", [⟨3, "e3"⟩, ⟨1, "e1"⟩, ⟨2, "e2"⟩]⟩ true (.ok ())).2
    cfgDevData (by rfl) (by decide) (by decide) rfl (by rfl) (by decide)

/-- C5 counterexample: a failing `CompleteMultipartUpload` is answered
with a request-scoped 400 and the handler issues no compensating
abort — the full store-call trace of the failed completion is the single
complete call, and it contains zero aborts. -/
theorem multipartComplete_failure_without_abort_cex :
    MultipartComplete appDev dbDev rootUser ⟨"dev", "k", "uid", [⟨1, "e1"⟩]⟩ true
        (.error "upstream failure") =
        (.errComplete, [.completeMultipartUpload "data" "k" "uid" [⟨1, "e1"⟩]]) ∧
      ((MultipartComplete appDev dbDev rootUser ⟨"dev", "k", "uid", [⟨1, "e1"⟩]⟩ true
          (.error "upstream failure")).2.countP isAbortCall) = 0 :=
  ⟨rfl, rfl⟩

/-- C5 as amended: when a step after Initiate fails, the handler
returns a request-scoped error and performs NO compensating abort —
`MultipartComplete` never issues an abort call on any input, and it
reports success only when the store's complete primitive succeeded. -/
theorem multipartComplete_failure_no_abort (app : App) (db : KV) (u : User)
    (req : MultipartCompleteRequest) (connectOk : Bool) (res : Except String Unit) :
    ((MultipartComplete app db u req connectOk res).2.countP isAbortCall = 0) ∧
      ∀ e : String, res = .error e →
        ∀ m : String, (MultipartComplete app db u req connectOk res).1 ≠ .ok m := by
  constructor
  · unfold MultipartComplete
    repeat' split
    all_goals rfl
  · intro e hres m
    subst hres
    unfold MultipartComplete
    rcases h1 : (req.key == "" || req.uploadID == "") with _ | _
    case true => simp
    case false =>
      rcases h2 : (req.parts.length == 0) with _ | _
      case true => simp
      case false =>
        rcases hauth : authorizeAndExtract app db u req.bucket req.bucket with _ | cfg
        case none => simp
        case some =>
          cases connectOk
          case false => simp
          case true =>
            rcases h3 : req.parts.any partInvalid with _ | _
            case false => simp
            case true => simp

/-- Witness for `multipartComplete_failure_no_abort` on a concrete
failed completion. -/
theorem multipartComplete_failure_no_abort_witness :
    ((MultipartComplete appDev dbDev rootUser ⟨"dev", "k", "uid", [⟨1, "e1"⟩]⟩ true
          (.error "boom")).2.countP isAbortCall = 0) ∧
      (MultipartComplete appDev dbDev rootUser ⟨"dev", "k", "uid", [⟨1, "e1"⟩]⟩ true
          (.error "boom")).1 ≠ .ok "Multipart upload completed" :=
  ⟨(multipartComplete_failure_no_abort appDev dbDev rootUser
      ⟨"dev", "k", "uid", [⟨1, "e1"⟩]⟩ true (.error "boom")).1,
    (multipartComplete_failure_no_abort appDev dbDev rootUser
      ⟨"dev", "k", "uid", [⟨1, "e1"⟩]⟩ true (.error "boom")).2 "boom" rfl
      "Multipart upload completed"⟩

/-! ## ListObjects (buckets.go lines 2256–2296) -/

/-- `Object` (lines 1795–1799): one entry of the list-objects
response. -/
structure Object where
  key : String
  size : Int
  contentType : String
  deriving Repr, DecidableEq

/-- Outcome of `ListObjects` (mid-stream listing errors from the
channel are outside the model). -/
inductive ListObjectsResponse where
  | authFailure
  | connectError
  | ok (objects : List Object)
  deriving Repr, DecidableEq

/-- `ListObjects` (lines 2256–2296): resolve+authorize (binding the
body as `ObjectRequest`), connect, then list the resolved bucket with
`Prefix: ""` and `Recursive: true` — the request's `prefix` field is
never consulted — and map every object to `{key, size, contentType}`. -/
def ListObjects (app : App) (db : KV) (u : User) (req : ObjectRequest)
    (connectOk : Bool) (store : Store) : ListObjectsResponse :=
  match authorizeAndExtract app db u "" req.bucketName with
  | none => .authFailure
  | some _bucketConfig =>
    if !connectOk then .connectError
    else .ok ((store : List ObjInfo).map (fun o => ⟨o.key, o.size, o.contentType⟩))

/-- C7 counterexample: a request with prefix `"a/"` against a bucket
holding only `"b/x"` still returns `"b/x"`, an object outside the
prefix — the response is not restricted to keys starting with the
requested prefix. -/
theorem listObjects_returns_outside_requested_pfx :
    ListObjects appDev dbDev rootUser ⟨"a/", "dev"⟩ true [⟨"b/x", 7, "t"⟩] =
        .ok [⟨"b/x", 7, "t"⟩] ∧
      strHasPrefix "b/x" "a/" = false :=
  ⟨rfl, rfl⟩

/-- C7 as amended: an authorized list-objects request returns every
object of the resolved bucket with key, size and content type; the
request's prefix field is ignored, so any two prefixes yield the same
response. -/
theorem listObjects_lists_whole_bucket (app : App) (db : KV) (u : User)
    (req : ObjectRequest) (store : Store) (cfg : BucketConfig)
    (hauth : authorizeAndExtract app db u "" req.bucketName = some cfg) :
    ListObjects app db u req true store =
        .ok ((store : List ObjInfo).map (fun o => ⟨o.key, o.size, o.contentType⟩)) ∧
      ∀ p' : String, ListObjects app db u ⟨p', req.bucketName⟩ true store =
        ListObjects app db u req true store := by
  have h1 : ListObjects app db u req true store =
      .ok ((store : List ObjInfo).map (fun o => ⟨o.key, o.size, o.contentType⟩)) := by
    unfold ListObjects
    rw [hauth]
    simp
  refine ⟨h1, ?_⟩
  intro p'
  rw [h1]
  unfold ListObjects
  rw [show (⟨p', req.bucketName⟩ : ObjectRequest).bucketName = req.bucketName from rfl, hauth]
  simp

/-- Witness for `listObjects_lists_whole_bucket` on a two-object
bucket. -/
theorem listObjects_lists_whole_bucket_witness :
    ListObjects appDev dbDev rootUser ⟨"a/", "dev"⟩ true
          [⟨"a/x", 1, "t"⟩, ⟨"b/x", 7, "t"⟩] =
        .ok [⟨"a/x", 1, "t"⟩, ⟨"b/x", 7, "t"⟩] ∧
      ∀ p' : String, ListObjects appDev dbDev rootUser ⟨p', "dev"⟩ true
          [⟨"a/x", 1, "t"⟩, ⟨"b/x", 7, "t"⟩] =
        ListObjects appDev dbDev rootUser ⟨"a/", "dev"⟩ true
          [⟨"a/x", 1, "t"⟩, ⟨"b/x", 7, "t"⟩] :=
  listObjects_lists_whole_bucket appDev dbDev rootUser ⟨"a/", "dev"⟩
    [⟨"a/x", 1, "t"⟩, ⟨"b/x", 7, "t"⟩] cfgDevData (by rfl)

end Buckets
